import Mathlib

/-!
Shallow embedding of the web-scraping pipeline of `src/tools/web_scraper.py`:
the per-URL fetch (`fetch_url`), the HTML main-content extractor
(`extract_main_content`) and the batch entry point (`scrape_urls`).

Modelling conventions:
* A fetched/parsed HTML document is represented by its parse tree (`Doc`),
  the output of the collaborator parser (BeautifulSoup with `html.parser`,
  which parses permissively and never raises on string input).
* The network behaviour for one URL is an explicit `FetchEvent`: either a
  completed HTTP exchange (status code plus parsed body) or a raised
  transport-level fault carrying its message string.
* Python dict records become the structure `FetchResult`; an `Option` field
  value `none` means the key is absent from the dict, and the `content`
  field is `Option (Option Doc)` because the key, when present, can hold
  either Python `None` or a body.
* Python `str.strip()` is `pyStrip`, defined on the character list.
-/

namespace WebScraper

/-- Characters of `l` with leading and trailing whitespace removed:
the character-level model of Python `str.strip()`. -/
def trimChars (l : List Char) : List Char :=
  ((l.dropWhile Char.isWhitespace).reverse.dropWhile Char.isWhitespace).reverse

/-- Model of Python `str.strip()`. -/
def pyStrip (s : String) : String :=
  String.mk (trimChars s.data)

/-- A node of the parsed HTML tree: an element with a tag name, attributes and
children, or a piece of character data (a bs4 `NavigableString`). -/
inductive Node where
  | elem (tag : String) (attrs : List (String × String)) (children : List Node)
  | text (s : String)

/-- A parsed document: the forest of top-level nodes of the soup. -/
abbrev Doc := List Node

/-- Children forest of a node; character data has no children. -/
def childrenOf : Node → List Node
  | Node.elem _ _ k => k
  | Node.text _ => []

mutual

/-- Model of bs4 `get_text()`: all character data of the subtree,
concatenated in document order. -/
def getText : Node → String
  | Node.text s => s
  | Node.elem _ _ cs => getTextF cs
termination_by structural n => n

/-- The concatenated character data of a forest, in document order. -/
def getTextF : List Node → String
  | [] => ""
  | c :: cs => getText c ++ getTextF cs
termination_by structural l => l

end

/-- Tags removed before extraction, from
`soup(['script', 'style', 'nav', 'footer', 'iframe'])` followed by
`element.decompose()` in `extract_main_content`. -/
def removedTags : List String := ["script", "style", "nav", "footer", "iframe"]

/-- Tags collected from the selected region, from
`main_content.find_all(['p', 'h1', 'h2', 'h3', 'h4', 'h5', 'h6', 'li'])`. -/
def targetTags : List String := ["p", "h1", "h2", "h3", "h4", "h5", "h6", "li"]

mutual

/-- Decompose pass on one kept node: its subtree is cleaned recursively. -/
def stripNode : Node → Node
  | Node.text s => Node.text s
  | Node.elem t a k => Node.elem t a (stripForest k)
termination_by structural n => n

/-- Model of the decompose pass: every element whose tag is in `removedTags`
is deleted together with its whole subtree. -/
def stripForest : List Node → List Node
  | [] => []
  | n :: ns =>
    match n with
    | Node.text s => Node.text s :: stripForest ns
    | Node.elem t _ _ =>
      if removedTags.contains t then stripForest ns
      else stripNode n :: stripForest ns
termination_by structural l => l

end

/-- The CSS selectors the source probes, as abstract syntax: a tag-name
selector, an exact attribute-value selector, an id selector, or a class
selector. -/
inductive Selector where
  | tag (name : String)
  | attrEq (key value : String)
  | idSel (value : String)
  | classSel (value : String)

/-- The whitespace-separated tokens of a `class` attribute value. -/
def classTokens (s : String) : List String :=
  (s.split Char.isWhitespace).filter (fun t => t ≠ "")

/-- First value bound to attribute `key`, if any. -/
def lookupAttr (attrs : List (String × String)) (key : String) : Option String :=
  (attrs.find? (fun kv => kv.1 == key)).map (fun kv => kv.2)

/-- Whether a node matches a selector.  Character data matches nothing; a
class selector tests membership among the whitespace-separated class
tokens; the others are exact comparisons. -/
def matchesSel (sel : Selector) (n : Node) : Bool :=
  match n, sel with
  | Node.text _, _ => false
  | Node.elem t _ _, Selector.tag nm => t == nm
  | Node.elem _ attrs _, Selector.attrEq k v => lookupAttr attrs k == some v
  | Node.elem _ attrs _, Selector.idSel v => lookupAttr attrs "id" == some v
  | Node.elem _ attrs _, Selector.classSel v =>
    match lookupAttr attrs "class" with
    | some c => (classTokens c).contains v
    | none => false

/-- The probe order of the source:
`['main', 'article', '[role="main"]', '#content', '.content', '#main', '.main']`. -/
def selectorOrder : List Selector :=
  [Selector.tag "main", Selector.tag "article", Selector.attrEq "role" "main",
   Selector.idSel "content", Selector.classSel "content",
   Selector.idSel "main", Selector.classSel "main"]

mutual

/-- Matches of a selector within one subtree, in document (preorder) order. -/
def selectNode (sel : Selector) (n : Node) : List Node :=
  match n with
  | Node.text _ => []
  | Node.elem t a k =>
    (if matchesSel sel (Node.elem t a k) then [Node.elem t a k] else []) ++
      selectForest sel k
termination_by structural n

/-- Model of `soup.select(sel)`: all matching elements of the forest in
document (preorder) order. -/
def selectForest (sel : Selector) : List Node → List Node
  | [] => []
  | n :: ns => selectNode sel n ++ selectForest sel ns
termination_by structural l => l

end

mutual

/-- Elements with a wanted tag within one subtree, in document order. -/
def findAllNode (names : List String) (n : Node) : List Node :=
  match n with
  | Node.text _ => []
  | Node.elem t a k =>
    (if names.contains t then [Node.elem t a k] else []) ++ findAllTags names k
termination_by structural n

/-- Model of `tag.find_all(names)` over a forest: all elements whose tag is in
`names`, in document (preorder) order. -/
def findAllTags (names : List String) : List Node → List Node
  | [] => []
  | n :: ns => findAllNode names n ++ findAllTags names ns
termination_by structural l => l

end

mutual

/-- The first `body` element within one subtree, in document order. -/
def findBodyNode : Node → Option Node
  | Node.text _ => none
  | Node.elem t a k =>
    if t == "body" then some (Node.elem t a k) else findBody k
termination_by structural n => n

/-- Model of `soup.body`: the first `body` element in document order, if any. -/
def findBody : List Node → Option Node
  | [] => none
  | n :: ns =>
    match findBodyNode n with
    | some b => some b
    | none => findBody ns
termination_by structural l => l

end

/-- The `for container in [...]` loop of `extract_main_content`: probe the
selectors in order; on the first selector with a non-empty result set take
its first node and break. -/
def probeLoop (soup : Doc) : List Selector → Option Node
  | [] => none
  | sel :: rest =>
    match selectForest sel soup with
    | [] => probeLoop soup rest
    | n :: _ => some n

/-- Truthiness of `main_content` in the two `if not main_content:` checks.
`main_content` is either `None` (falsy) or a bs4 `Tag`; bs4 defines
`Tag.__bool__` to return `True` unconditionally, so only `None` is falsy. -/
def notTruthy : Option Node → Bool
  | none => true
  | some _ => false

/-- The container after the two fallback checks of the source: the probe-loop
result if truthy, else `soup.body`; a remaining `none` means the final
fallback (the whole soup) applies. -/
def selectedContainer (soup : Doc) : Option Node :=
  let mc := probeLoop soup selectorOrder
  if notTruthy mc then findBody soup else mc

/-- The nodes whose text the extractor collects: `find_all` of the target
tags over the selected container (its children forest), or over the whole
stripped soup when every fallback failed. -/
def selectedItems (doc : Doc) : List Node :=
  let soup := stripForest doc
  match selectedContainer soup with
  | some n => findAllTags targetTags (childrenOf n)
  | none => findAllTags targetTags soup

/-- The try-block body of `extract_main_content`: strip noise elements,
select the container, then fold the collected nodes into
`text += p.get_text().strip() + "\n\n"` and strip the final result. -/
def extractCore (doc : Doc) : String :=
  pyStrip ((selectedItems doc).foldl
    (fun acc n => acc ++ (pyStrip (getText n) ++ "\n\n")) "")

/-- The `except` clause of `extract_main_content`: a raised extraction fault
is replaced by the fixed sentinel string. -/
def runExtract : Except String String → String
  | Except.ok s => s
  | Except.error _ => "Error extracting content"

/-- Model of `extract_main_content`.  The embedding of the try-block is a
total function, so the guarded computation always yields `Except.ok`. -/
def extract_main_content (doc : Doc) : String :=
  runExtract (Except.ok (extractCore doc))

/-- The network behaviour observed for one URL: a completed HTTP exchange
(status code plus parsed body), or a transport-level fault (connection
failure, timeout, DNS failure, malformed URL) carrying `str(e)`. -/
inductive FetchEvent where
  | response (status : Nat) (body : Doc)
  | fault (msg : String)

/-- One per-URL outcome record.  A `none` in an `Option` field models the key
being absent from the Python dict; `content` distinguishes an absent key
(`none`) from a present key holding Python `None` (`some none`). -/
structure FetchResult where
  url : String
  success : Bool
  status : Option Nat := none
  error : Option String := none
  content : Option (Option Doc) := none
  extracted_content : Option String := none

/-- Model of `fetch_url`: non-OK status yields a failure record carrying the
status and a synthesized message; a completed 200 exchange yields a success
record carrying the body; a raised fault yields a failure record with no
status. -/
def fetch_url (url : String) (ev : FetchEvent) : FetchResult :=
  match ev with
  | FetchEvent.response status body =>
    if status ≠ 200 then
      { url := url, success := false, status := some status,
        error := some ("HTTP error: " ++ toString status), content := some none }
    else
      { url := url, success := true, status := some status,
        content := some (some body) }
  | FetchEvent.fault msg =>
    { url := url, success := false, error := some msg, content := some none }

/-- The post-processing loop of `scrape_urls` on one record: on success,
attach `extracted_content` and delete the raw `content`; failures pass
through unchanged. -/
def processResult (r : FetchResult) : FetchResult :=
  if r.success then
    { r with
      extracted_content := some (extract_main_content ((r.content.getD none).getD [])),
      content := none }
  else r

/-- Model of `scrape_urls`: `asyncio.gather` returns the per-task results in
the positional order the tasks were created in, so the batch is the map of
`fetch_url` over the requests followed by the post-processing map. -/
def scrape_urls (reqs : List (String × FetchEvent)) : List FetchResult :=
  (reqs.map (fun req => fetch_url req.1 req.2)).map processResult

/-- Concatenation of a list of strings, used to restate the extractor's
string-building fold. -/
def concatAll : List String → String
  | [] => ""
  | t :: ts => t ++ concatAll ts

/-- Concatenation with `sep` between consecutive entries (and nowhere else),
the separator discipline the specification describes. -/
def joinSep (sep : String) : List String → String
  | [] => ""
  | [t] => t
  | t :: t2 :: ts => t ++ sep ++ joinSep sep (t2 :: ts)

/-- The container-selection rule as the specification words it: the first
node, in document order, matched by the first selector that matches any
node; otherwise the body; a residual `none` designates the whole parsed
tree. -/
def claimContainer (soup : Doc) : Option Node :=
  match selectorOrder.findSome? (fun sel => (selectForest sel soup).head?) with
  | some n => some n
  | none => findBody soup

/-- A concrete parsed body used by the witnesses. -/
def sampleBody : Doc := [Node.elem "p" [] [Node.text "hi"]]

/-- A concrete two-request batch used by the witnesses: one completed OK
exchange and one transport fault. -/
def sampleReqs : List (String × FetchEvent) :=
  [("http://a", FetchEvent.response 200 sampleBody),
   ("http://b", FetchEvent.fault "boom")]

/-- Children of the body of the concrete document `c6Doc`: two paragraphs,
the first with surrounding whitespace in its character data. -/
def c6Body : List Node :=
  [Node.elem "p" [] [Node.text " a "], Node.elem "p" [] [Node.text "b"]]

/-- A concrete document with only a body and no main-content containers. -/
def c6Doc : Doc := [Node.elem "body" [] c6Body]

/-- A concrete document with no container match and no body at all. -/
def noBodyDoc : Doc := [Node.elem "div" [] [Node.elem "p" [] [Node.text "loose"]]]

/-! ### Helper lemmas on stripping and joining -/

theorem dropWhile_self (p : α → Bool) (l : List α) :
    (l.dropWhile p).dropWhile p = l.dropWhile p := by
  cases h : l.dropWhile p with
  | nil => rfl
  | cons x xs =>
    have hx : p x = false := by
      have h0 := List.head?_dropWhile_not p l
      rw [h] at h0
      exact h0
    exact List.dropWhile_cons_of_neg (by simp [hx])

theorem getLast?_dropWhile_ne (p : α → Bool) (l : List α) (h : l.dropWhile p ≠ []) :
    (l.dropWhile p).getLast? = l.getLast? := by
  induction l with
  | nil => simp at h
  | cons x xs ih =>
    rw [List.dropWhile_cons] at h ⊢
    by_cases hp : p x
    · rw [if_pos hp] at h ⊢
      cases xs with
      | nil => simp at h
      | cons y ys => rw [ih h, List.getLast?_cons_cons]
    · rw [if_neg hp]

theorem trimChars_idem (l : List Char) : trimChars (trimChars l) = trimChars l := by
  have hstep : (trimChars l).dropWhile Char.isWhitespace = trimChars l := by
    cases hT : trimChars l with
    | nil => rfl
    | cons c w =>
      have hv : (l.dropWhile Char.isWhitespace).reverse.dropWhile Char.isWhitespace ≠ [] := by
        intro hnil
        rw [trimChars, hnil] at hT
        simp at hT
      have hc : (l.dropWhile Char.isWhitespace).head? = some c := by
        have h1 : (trimChars l).head? = some c := by rw [hT]; rfl
        rw [trimChars, List.head?_reverse, getLast?_dropWhile_ne _ _ hv,
            List.getLast?_reverse] at h1
        exact h1
      have hpc : Char.isWhitespace c = false := by
        have h0 := List.head?_dropWhile_not Char.isWhitespace l
        rw [hc] at h0
        exact h0
      exact List.dropWhile_cons_of_neg (by simp [hpc])
  show (((trimChars l).dropWhile Char.isWhitespace).reverse.dropWhile
      Char.isWhitespace).reverse = trimChars l
  rw [hstep]
  show ((((l.dropWhile Char.isWhitespace).reverse.dropWhile
      Char.isWhitespace).reverse.reverse.dropWhile Char.isWhitespace).reverse) = trimChars l
  rw [List.reverse_reverse, dropWhile_self]
  rfl

theorem trimChars_append_nn (a : List Char) :
    trimChars (a ++ ['\n', '\n']) = trimChars a := by
  simp only [trimChars]
  rw [List.dropWhile_append]
  by_cases h : (a.dropWhile Char.isWhitespace).isEmpty
  · rw [if_pos h, List.isEmpty_iff.mp h]
    rfl
  · rw [if_neg h, List.reverse_append]
    have h2 : (['\n', '\n'] : List Char).reverse = ['\n', '\n'] := rfl
    rw [h2, List.cons_append, List.cons_append, List.nil_append,
      List.dropWhile_cons_of_pos (by decide), List.dropWhile_cons_of_pos (by decide)]

theorem pyStrip_data (s : String) : (pyStrip s).data = trimChars s.data := rfl

theorem pyStrip_append_sep (s : String) : pyStrip (s ++ "\n\n") = pyStrip s := by
  apply String.ext
  rw [pyStrip_data, pyStrip_data, String.data_append]
  have h : ("\n\n" : String).data = ['\n', '\n'] := rfl
  rw [h, trimChars_append_nn]

theorem pyStrip_idem (s : String) : pyStrip (pyStrip s) = pyStrip s := by
  apply String.ext
  rw [pyStrip_data, pyStrip_data, trimChars_idem]

theorem foldl_append_concatAll (g : α → String) (l : List α) (acc : String) :
    l.foldl (fun a x => a ++ g x) acc = acc ++ concatAll (l.map g) := by
  induction l generalizing acc with
  | nil => simp [concatAll]
  | cons x xs ih => simp [concatAll, ih, String.append_assoc]

theorem concatAll_map_sep (sep t : String) (ts : List String) :
    concatAll ((t :: ts).map (fun u => u ++ sep)) = joinSep sep (t :: ts) ++ sep := by
  induction ts generalizing t with
  | nil => simp [concatAll, joinSep]
  | cons t2 ts ih =>
    show (t ++ sep) ++ concatAll ((t2 :: ts).map (fun u => u ++ sep)) =
      ((t ++ sep) ++ joinSep sep (t2 :: ts)) ++ sep
    rw [ih t2, ← String.append_assoc]

theorem strip_concat_eq_strip_join (us : List String) :
    pyStrip (concatAll (us.map (fun u => u ++ "\n\n"))) = pyStrip (joinSep "\n\n" us) := by
  cases us with
  | nil => rfl
  | cons t ts => rw [concatAll_map_sep, pyStrip_append_sep]

/-! ### Helper lemmas on the fetch pipeline -/

theorem fetch_url_url (url : String) (ev : FetchEvent) : (fetch_url url ev).url = url := by
  cases ev with
  | response st body =>
    simp only [fetch_url]
    split <;> rfl
  | fault msg => rfl

theorem processResult_url (r : FetchResult) : (processResult r).url = r.url := by
  unfold processResult
  split <;> rfl

theorem processResult_status (r : FetchResult) : (processResult r).status = r.status := by
  unfold processResult
  split <;> rfl

theorem processResult_of_failure (r : FetchResult) (h : r.success = false) :
    processResult r = r := by
  simp [processResult, h]

theorem probeLoop_eq_findSome (soup : Doc) (sels : List Selector) :
    probeLoop soup sels = sels.findSome? (fun sel => (selectForest sel soup).head?) := by
  induction sels with
  | nil => rfl
  | cons sel rest ih =>
    simp only [probeLoop, List.findSome?_cons]
    cases h : selectForest sel soup with
    | nil => simpa [h] using ih
    | cons n ns => simp [h]

theorem probeLoop_eq_none (soup : Doc) (sels : List Selector)
    (h : ∀ sel ∈ sels, selectForest sel soup = []) : probeLoop soup sels = none := by
  induction sels with
  | nil => rfl
  | cons s rest ih =>
    simp only [probeLoop]
    rw [h s (List.mem_cons_self s rest)]
    exact ih fun sel hs => h sel (List.mem_cons_of_mem s hs)

theorem extract_as_join (doc : Doc) :
    extract_main_content doc =
      pyStrip (joinSep "\n\n" ((selectedItems doc).map (fun n => pyStrip (getText n)))) := by
  unfold extract_main_content runExtract extractCore
  rw [foldl_append_concatAll, String.empty_append]
  have h : (selectedItems doc).map (fun n => pyStrip (getText n) ++ "\n\n") =
      ((selectedItems doc).map (fun n => pyStrip (getText n))).map (fun u => u ++ "\n\n") :=
    (List.map_map (fun u => u ++ "\n\n") (fun n => pyStrip (getText n))
      (selectedItems doc)).symm
  rw [h, strip_concat_eq_strip_join]

/-! ### Claim theorems -/

/-- C1: for every batch, `scrape_urls` returns exactly one record per input
URL, in input order, and the record at position i echoes the input URL at
position i; the returned list is never partial. -/
theorem scrape_urls_order_preserved (reqs : List (String × FetchEvent)) :
    (scrape_urls reqs).length = reqs.length ∧
    ∀ i (h1 : i < reqs.length) (h2 : i < (scrape_urls reqs).length),
      ((scrape_urls reqs).get ⟨i, h2⟩).url = (reqs.get ⟨i, h1⟩).1 := by
  refine ⟨by simp [scrape_urls], fun i h1 h2 => ?_⟩
  simp only [scrape_urls, List.get_eq_getElem, List.getElem_map]
  rw [processResult_url, fetch_url_url]

/-- Witness for C1 at a concrete two-request batch. -/
theorem scrape_urls_order_preserved_witness :
    ((scrape_urls sampleReqs).get ⟨1, by decide⟩).url = "http://b" :=
  (scrape_urls_order_preserved sampleReqs).2 1 (by decide) (by decide)

/-- C2: every returned record carries `extracted_content` exactly when it
succeeded and an `error` exactly when it failed, and no returned record's
`content` field ever holds a fetched body. -/
theorem scrape_record_mutual_exclusivity (reqs : List (String × FetchEvent))
    (r : FetchResult) (hm : r ∈ scrape_urls reqs) :
    (r.success = true → (∃ s, r.extracted_content = some s) ∧ r.error = none) ∧
    (r.success = false → (∃ e, r.error = some e) ∧ r.extracted_content = none) ∧
    ∀ b, r.content ≠ some (some b) := by
  simp only [scrape_urls, List.mem_map] at hm
  obtain ⟨r0, ⟨req, hreq, rfl⟩, rfl⟩ := hm
  obtain ⟨url, ev⟩ := req
  cases ev with
  | response st body =>
    by_cases h : st = 200
    · subst h
      simp [fetch_url, processResult]
    · simp [fetch_url, processResult, h]
  | fault msg => simp [fetch_url, processResult]

/-- Witness for C2 at the successful record of the concrete batch. -/
theorem scrape_record_mutual_exclusivity_witness :
    (∃ s, (processResult (fetch_url "http://a"
      (FetchEvent.response 200 sampleBody))).extracted_content = some s) ∧
    (processResult (fetch_url "http://a"
      (FetchEvent.response 200 sampleBody))).error = none := by
  have hm : processResult (fetch_url "http://a" (FetchEvent.response 200 sampleBody)) ∈
      scrape_urls sampleReqs := List.mem_cons_self _ _
  exact (scrape_record_mutual_exclusivity sampleReqs _ hm).1 rfl

/-- C3: a completed exchange with a non-200 status yields a failure record
carrying that status and a non-empty synthesized error, with no body
retained. -/
theorem fetch_non_ok_failure (url : String) (st : Nat) (body : Doc) (h : st ≠ 200) :
    (fetch_url url (FetchEvent.response st body)).success = false ∧
    (fetch_url url (FetchEvent.response st body)).status = some st ∧
    (∃ e, (fetch_url url (FetchEvent.response st body)).error = some e ∧ e ≠ "") ∧
    ∀ b, (fetch_url url (FetchEvent.response st body)).content ≠ some (some b) := by
  have hne : ("HTTP error: " ++ toString st) ≠ "" := by
    intro hq
    have hlen := congrArg String.length hq
    rw [String.length_append] at hlen
    have h12 : ("HTTP error: " : String).length = 12 := rfl
    have h0 : ("" : String).length = 0 := rfl
    rw [h12, h0] at hlen
    omega
  simp [fetch_url, h, hne]

/-- Witness for C3 at a 404 response. -/
theorem fetch_non_ok_failure_witness :
    (fetch_url "http://x" (FetchEvent.response 404 [])).success = false ∧
    (fetch_url "http://x" (FetchEvent.response 404 [])).status = some 404 := by
  have h := fetch_non_ok_failure "http://x" 404 [] (by decide)
  exact ⟨h.1, h.2.1⟩

/-- C4: a transport fault yields a failure record carrying the fault's
message and no status, the record passes through post-processing unchanged,
and the fault is local: the batch keeps one record per input and every
output position is determined by its own request alone. -/
theorem fetch_fault_isolation (url msg : String) (reqs : List (String × FetchEvent)) :
    (fetch_url url (FetchEvent.fault msg)).success = false ∧
    (fetch_url url (FetchEvent.fault msg)).error = some msg ∧
    (fetch_url url (FetchEvent.fault msg)).status = none ∧
    processResult (fetch_url url (FetchEvent.fault msg)) =
      fetch_url url (FetchEvent.fault msg) ∧
    (scrape_urls reqs).length = reqs.length ∧
    ∀ i (h1 : i < reqs.length) (h2 : i < (scrape_urls reqs).length),
      (scrape_urls reqs).get ⟨i, h2⟩ =
        processResult (fetch_url (reqs.get ⟨i, h1⟩).1 (reqs.get ⟨i, h1⟩).2) := by
  refine ⟨rfl, rfl, rfl, processResult_of_failure _ rfl, by simp [scrape_urls],
    fun i h1 h2 => ?_⟩
  simp only [scrape_urls, List.get_eq_getElem, List.getElem_map]

/-- Witness for C4 at the faulting entry of the concrete batch. -/
theorem fetch_fault_isolation_witness :
    (scrape_urls sampleReqs).get ⟨1, by decide⟩ =
      processResult (fetch_url "http://b" (FetchEvent.fault "boom")) :=
  (fetch_fault_isolation "http://b" "boom" sampleReqs).2.2.2.2.2 1 (by decide) (by decide)

/-- C5: container selection follows the specified probe order — the first
node, in document order, of the first matching selector, else the body —
and when both fall through, the collection runs over the entire parsed
tree. -/
theorem container_selection_spec :
    (∀ soup : Doc, selectedContainer soup = claimContainer soup) ∧
    (∀ doc : Doc, selectedContainer (stripForest doc) = none →
      selectedItems doc = findAllTags targetTags (stripForest doc)) := by
  constructor
  · intro soup
    simp only [selectedContainer, claimContainer, probeLoop_eq_findSome]
    cases h : selectorOrder.findSome? (fun sel => (selectForest sel soup).head?) with
    | none => simp [h, notTruthy]
    | some n => simp [h, notTruthy]
  · intro doc h
    simp [selectedItems, h]

/-- Witness for C5 at a concrete document with neither container nor body. -/
theorem container_selection_spec_witness :
    selectedContainer (stripForest noBodyDoc) = none ∧
    selectedItems noBodyDoc = findAllTags targetTags (stripForest noBodyDoc) :=
  ⟨rfl, container_selection_spec.2 noBodyDoc rfl⟩

/-- C6 as stated fails on the code: the source strips each collected node's
text before appending it, so a paragraph whose character data carries
surrounding whitespace makes the output differ from the trimmed blank-line
join of the raw texts.  At `c6Doc` the code yields "a\n\nb" while the raw
join yields "a \n\nb". -/
theorem body_join_raw_counterexample :
    stripForest c6Doc = [Node.elem "body" [] c6Body] ∧
    (∀ sel ∈ selectorOrder, selectForest sel (stripForest c6Doc) = []) ∧
    extract_main_content c6Doc ≠
      pyStrip (joinSep "\n\n" ((findAllTags targetTags c6Body).map getText)) := by
  refine ⟨rfl, fun sel hsel => ?_, ?_⟩
  · fin_cases hsel <;> rfl
  · decide

/-- C6 amended: for a document whose stripped tree is exactly a body and
where no probe selector matches, the output is the blank-line join of the
collected nodes' texts, each text first stripped of its own leading and
trailing whitespace, with the final result trimmed. -/
theorem body_fallback_extraction (doc : Doc) (battrs : List (String × String))
    (k : List Node)
    (hbody : stripForest doc = [Node.elem "body" battrs k])
    (hnosel : ∀ sel ∈ selectorOrder, selectForest sel (stripForest doc) = []) :
    extract_main_content doc =
      pyStrip (joinSep "\n\n"
        ((findAllTags targetTags k).map (fun n => pyStrip (getText n)))) := by
  have hpl : probeLoop (stripForest doc) selectorOrder = none :=
    probeLoop_eq_none _ _ hnosel
  have hsc : selectedContainer (stripForest doc) = some (Node.elem "body" battrs k) := by
    rw [hbody] at hpl ⊢
    simp [selectedContainer, hpl, notTruthy, findBody, findBodyNode]
  have hitems : selectedItems doc = findAllTags targetTags k := by
    simp [selectedItems, hsc, childrenOf]
  rw [extract_as_join, hitems]

/-- Witness for the amended C6 at the concrete body-only document. -/
theorem body_fallback_extraction_witness :
    extract_main_content c6Doc =
      pyStrip (joinSep "\n\n"
        ((findAllTags targetTags c6Body).map (fun n => pyStrip (getText n)))) :=
  body_fallback_extraction c6Doc [] c6Body rfl
    (fun sel hsel => by fin_cases hsel <;> rfl)

/-- C7: the extractor is total — the guarded try-block always yields a value,
and the except branch alone produces the fixed sentinel — and a successful
outcome keeps `success = true` with an extracted-content string attached,
whatever extraction produced. -/
theorem extractor_totality :
    (∀ doc : Doc, extract_main_content doc = runExtract (Except.ok (extractCore doc))) ∧
    (∀ msg : String, runExtract (Except.error msg) = "Error extracting content") ∧
    (∀ r : FetchResult, r.success = true →
      (processResult r).success = true ∧
      ∃ s, (processResult r).extracted_content = some s) := by
  refine ⟨fun doc => rfl, fun msg => rfl, fun r h => ⟨by simp [processResult, h], ?_⟩⟩
  refine ⟨extract_main_content ((r.content.getD none).getD []), ?_⟩
  simp [processResult, h]

/-- Witness for C7 at a concrete successful record. -/
theorem extractor_totality_witness :
    (processResult (fetch_url "http://a" (FetchEvent.response 200 sampleBody))).success
      = true :=
  (extractor_totality.2.2 (fetch_url "http://a" (FetchEvent.response 200 sampleBody)) rfl).1

/-- C9: every success record in a batch result carries a status field equal
to 200. -/
theorem success_carries_ok_status (reqs : List (String × FetchEvent))
    (r : FetchResult) (hm : r ∈ scrape_urls reqs) (hs : r.success = true) :
    r.status = some 200 := by
  simp only [scrape_urls, List.mem_map] at hm
  obtain ⟨r0, ⟨req, hreq, rfl⟩, rfl⟩ := hm
  obtain ⟨url, ev⟩ := req
  cases ev with
  | response st body =>
    by_cases h : st = 200
    · subst h
      simp [fetch_url, processResult]
    · simp [fetch_url, processResult, h] at hs
  | fault msg => simp [fetch_url, processResult] at hs

/-- Witness for C9 at the successful record of the concrete batch. -/
theorem success_carries_ok_status_witness :
    (processResult (fetch_url "http://a" (FetchEvent.response 200 sampleBody))).status
      = some 200 :=
  success_carries_ok_status sampleReqs _ (List.mem_cons_self _ _) rfl

/-- C10: the extractor's output is the trimmed blank-line join of the
individually stripped texts of the collected nodes, and each joined entry
carries no surrounding whitespace of its own. -/
theorem items_individually_stripped (doc : Doc) :
    extract_main_content doc =
      pyStrip (joinSep "\n\n"
        ((selectedItems doc).map (fun n => pyStrip (getText n)))) ∧
    ∀ t ∈ (selectedItems doc).map (fun n => pyStrip (getText n)), pyStrip t = t := by
  refine ⟨extract_as_join doc, fun t ht => ?_⟩
  obtain ⟨n, _, rfl⟩ := List.mem_map.mp ht
  exact pyStrip_idem _

/-- Witness for C10 at the first collected node of the concrete document. -/
theorem items_individually_stripped_witness :
    pyStrip (pyStrip (getText (Node.elem "p" [] [Node.text " a "]))) =
      pyStrip (getText (Node.elem "p" [] [Node.text " a "])) :=
  (items_individually_stripped c6Doc).2 _ (List.mem_cons_self _ _)

end WebScraper
